import Mathlib

/-!
Shallow embedding of the heuristic code-analysis engine of the
`ai-code-explorer` repository (TypeScript handlers under
`src/server/src/handlers/`), together with theorems settling the frozen
claims about its specification.

JavaScript strings are modelled as `List Char` (`JStr`).  Numeric values
computed with JavaScript `number` arithmetic are modelled as `ℚ`; all the
quantities appearing here are sums of small multiples of 1/10, so the
rational model is exact.  Database rows are modelled as Lean structures and
the database itself as an explicit `Store`; handler side effects are
explicit store-passing.
-/

namespace AICE

/-- Model of a JavaScript string: a sequence of characters. -/
abbrev JStr := List Char

/-- The opening curly brace character, written by code to avoid brace
literals inside the file. -/
def lbrace : Char := Char.ofNat 123

/-- The closing curly brace character. -/
def rbrace : Char := Char.ofNat 125

/-- Model of JavaScript `String.prototype.toLowerCase` (ASCII-adequate). -/
def toLowerStr (s : JStr) : JStr := s.map Char.toLower

/-- Characters matched by the JavaScript regex class `\s`
(space, tab, newline, carriage return, vertical tab, form feed). -/
def jsWs (c : Char) : Bool :=
  c = ' ' || c = '\t' || c = '\n' || c = '\r' || c = Char.ofNat 11 || c = Char.ofNat 12

/-- Characters matched by the JavaScript regex class `\w`. -/
def jsWord (c : Char) : Bool := c.isAlphanum || c = '_'

/-- Model of JavaScript `String.prototype.trimStart`. -/
def jsTrimStart (s : JStr) : JStr := s.dropWhile jsWs

/-- Model of JavaScript `String.prototype.trim` (both ends). -/
def jsTrim (s : JStr) : JStr := ((s.dropWhile jsWs).reverse.dropWhile jsWs).reverse

/-- Decide whether `needle` occurs contiguously inside `hay`. -/
def occursIn (needle hay : JStr) : Bool :=
  match hay with
  | [] => needle.isEmpty
  | _ :: t => needle.isPrefixOf hay || occursIn needle t

/-- JavaScript `hay.includes(needle)` for strings. -/
def jsIncludes (hay needle : JStr) : Bool := occursIn needle hay

/-- JavaScript truthiness of a nullable string: `null` and the empty string
are falsy. -/
def jsFalsyStr : Option JStr → Bool
  | none => true
  | some s => s.isEmpty

/-!
Source: `src/server/src/handlers/analyze_code_file.ts`, function
`calculateMaxBraceDepth` (lines 106–120).  The running depth is a plain
JavaScript number (modelled `ℤ`, it may go negative); the maximum starts
at 0 and is raised only when a brace opens.
-/

/-- Character loop of `calculateMaxBraceDepth`: current depth and maximum
observed depth are threaded through the recursion. -/
def braceDepthAux : JStr → ℤ → ℤ → ℤ
  | [], _, maxD => maxD
  | c :: cs, cur, maxD =>
    if c = lbrace then braceDepthAux cs (cur + 1) (max maxD (cur + 1))
    else if c = rbrace then braceDepthAux cs (cur - 1) maxD
    else braceDepthAux cs cur maxD

/-- Model of `calculateMaxBraceDepth(content)`. -/
def calculateMaxBraceDepth (content : JStr) : ℤ := braceDepthAux content 0 0

/-!
Regex-count helpers for `calculateComplexityScore`.  A JavaScript
`content.match(/re/g)` counts non-overlapping matches found by a
left-to-right scan: at each position the engine tries to match; on success
it jumps past the match, on failure it advances one character.
-/

/-- Attempt to match `kw` followed by `\s*` followed by a left parenthesis
at the head of `s`; returns the length of the match. -/
def tryMatchKwParen (kw : JStr) (s : JStr) : Option Nat :=
  if kw.isPrefixOf s then
    let rest := s.drop kw.length
    let w := (rest.takeWhile jsWs).length
    match rest.drop w with
    | '(' :: _ => some (kw.length + w + 1)
    | _ => none
  else none

/-- Attempt to match the regex `function\s+\w+` at the head of `s`
(the keyword, at least one whitespace, at least one word character);
returns the length of the greedy match. -/
def tryMatchFunctionWord (s : JStr) : Option Nat :=
  if ("function".data).isPrefixOf s then
    let rest := s.drop 8
    let w := (rest.takeWhile jsWs).length
    if w = 0 then none
    else
      let k := ((rest.drop w).takeWhile jsWord).length
      if k = 0 then none else some (8 + w + k)
  else none

/-- Count non-overlapping regex matches in a left-to-right scan, as
JavaScript `String.prototype.match` with the `g` flag does.  All matchers
used here return a positive length, and the scan advances by at least one
character either way. -/
def countMatchesAux (try_ : JStr → Option Nat) : Nat → JStr → Nat
  | 0, _ => 0
  | _, [] => 0
  | fuel + 1, c :: cs =>
    match try_ (c :: cs) with
    | some n => 1 + countMatchesAux try_ fuel ((c :: cs).drop (max n 1))
    | none => countMatchesAux try_ fuel cs

/-- Count non-overlapping regex matches in a left-to-right scan, as
JavaScript `String.prototype.match` with the `g` flag does.  The scan
advances by at least one character per step, so fuel equal to the string
length makes the structural recursion total without changing the result. -/
def countMatches (try_ : JStr → Option Nat) (s : JStr) : Nat :=
  countMatchesAux try_ s.length s

/-- JavaScript `Math.round`, which rounds half toward positive infinity,
that is `⌊x + 1/2⌋`.  Written with integer division of the numerator so
that it evaluates inside the kernel. -/
def jsMathRound (q : ℚ) : ℤ := (q + 1 / 2).num / ((q + 1 / 2).den : ℤ)

/-- The computable rounding agrees with Mathlib rounding. -/
theorem jsMathRound_eq_round (q : ℚ) : jsMathRound q = round q := by
  rw [round_eq, Rat.floor_def, jsMathRound]

/-- Model of `calculateComplexityScore(content)` from
`src/server/src/handlers/analyze_code_file.ts` (lines 84–103). -/
def calculateComplexityScore (content : JStr) : ℚ :=
  (jsMathRound
    ((1
      + countMatches (tryMatchKwParen "if".data) content
      + countMatches (tryMatchKwParen "for".data) content
      + countMatches (tryMatchKwParen "while".data) content
      + countMatches (tryMatchKwParen "switch".data) content
      + countMatches (tryMatchKwParen "catch".data) content
      + (calculateMaxBraceDepth content) * (1 / 2)
      + (countMatches tryMatchFunctionWord content) * (3 / 10)) * 100) : ℚ) / 100

/-!
Formalisation of the specification's description of the complexity score
(spec §4.2), used for the refinement comparison of claim C2.  The spec
speaks of literal substrings such as `if (` with a single mandatory space,
where the source regexes use `\s*` (optional whitespace).
-/

/-- Attempt to match the literal string `lit` at the head of `s`. -/
def tryMatchLit (lit : JStr) (s : JStr) : Option Nat :=
  if lit.isPrefixOf s then some lit.length else none

/-- Attempt to match the literal `function ` (single space) followed by at
least one identifier character, per the spec's words. -/
def tryMatchLitFunctionIdent (s : JStr) : Option Nat :=
  if ("function ".data).isPrefixOf s then
    let k := ((s.drop 9).takeWhile jsWord).length
    if k = 0 then none else some (9 + k)
  else none

/-- Complexity score as the specification words it (claim C2): literal
substring occurrences of `if (`, `for (`, `while (`, `switch (`,
`catch (`, plus 0.5 times the maximum brace depth, plus 0.3 times the
number of occurrences of `function ` followed by an identifier, rounded to
two decimal places. -/
def specComplexityScore (content : JStr) : ℚ :=
  (jsMathRound
    ((1
      + countMatches (tryMatchLit "if (".data) content
      + countMatches (tryMatchLit "for (".data) content
      + countMatches (tryMatchLit "while (".data) content
      + countMatches (tryMatchLit "switch (".data) content
      + countMatches (tryMatchLit "catch (".data) content
      + (calculateMaxBraceDepth content) * (1 / 2)
      + (countMatches tryMatchLitFunctionIdent content) * (3 / 10)) * 100) : ℚ) / 100

/-- The auxiliary brace scan never returns less than the tracked maximum. -/
lemma braceDepthAux_ge (s : JStr) : ∀ cur maxD : ℤ, maxD ≤ braceDepthAux s cur maxD := by
  induction s with
  | nil => intro cur maxD; simp [braceDepthAux]
  | cons c cs ih =>
    intro cur maxD
    simp only [braceDepthAux]
    split
    · exact le_trans (le_max_left _ _) (ih _ _)
    · split
      · exact ih _ _
      · exact ih _ _

/-- The maximum brace depth is never negative. -/
lemma calculateMaxBraceDepth_nonneg (content : JStr) : 0 ≤ calculateMaxBraceDepth content :=
  braceDepthAux_ge content 0 0

/-- Rounding to two decimals preserves a lower bound of 1. -/
lemma one_le_round2 (v : ℚ) (h : 1 ≤ v) : 1 ≤ ((jsMathRound (v * 100) : ℤ) : ℚ) / 100 := by
  rw [jsMathRound_eq_round, round_eq]
  have hfl : (100:ℤ) ≤ ⌊v * 100 + 1 / 2⌋ := by
    rw [Int.le_floor]
    push_cast
    linarith
  have hq : (100:ℚ) ≤ ((⌊v * 100 + 1 / 2⌋ : ℤ) : ℚ) := by exact_mod_cast hfl
  linarith

/-- The complexity score of any content is at least 1. -/
lemma one_le_calculateComplexityScore (content : JStr) :
    1 ≤ calculateComplexityScore content := by
  unfold calculateComplexityScore
  apply one_le_round2
  have hd : (0:ℚ) ≤ ((calculateMaxBraceDepth content : ℤ) : ℚ) := by
    exact_mod_cast calculateMaxBraceDepth_nonneg content
  have h1 : (0:ℚ) ≤ ((countMatches (tryMatchKwParen "if".data) content : ℚ)) := by positivity
  have h2 : (0:ℚ) ≤ ((countMatches (tryMatchKwParen "for".data) content : ℚ)) := by positivity
  have h3 : (0:ℚ) ≤ ((countMatches (tryMatchKwParen "while".data) content : ℚ)) := by positivity
  have h4 : (0:ℚ) ≤ ((countMatches (tryMatchKwParen "switch".data) content : ℚ)) := by positivity
  have h5 : (0:ℚ) ≤ ((countMatches (tryMatchKwParen "catch".data) content : ℚ)) := by positivity
  have h7 : (0:ℚ) ≤ ((countMatches tryMatchFunctionWord content : ℚ)) := by positivity
  linarith

/-- The brace scan leaves the maximum untouched on closing braces only. -/
lemma braceDepthAux_replicate_rbrace (n : Nat) :
    ∀ cur maxD : ℤ, braceDepthAux (List.replicate n rbrace) cur maxD = maxD := by
  induction n with
  | zero => intro cur maxD; simp [braceDepthAux]
  | succ m ih =>
    intro cur maxD
    have hne : ¬ (rbrace = lbrace) := by decide
    simp [List.replicate_succ, braceDepthAux, hne, ih]

/-- C10: for every content string, including strings whose unmatched closing
braces drive the running depth counter negative, `calculateMaxBraceDepth`
returns a nonnegative integer; content consisting only of closing braces
yields 0. -/
theorem claim_C10_braceDepth_nonneg :
    (∀ content : JStr, 0 ≤ calculateMaxBraceDepth content) ∧
    (∀ n : Nat, calculateMaxBraceDepth (List.replicate n rbrace) = 0) := by
  constructor
  · exact calculateMaxBraceDepth_nonneg
  · intro n
    exact braceDepthAux_replicate_rbrace n 0 0

/-- C2 counterexample: on the content `if(` (no space before the
parenthesis) the implementation's regex `if\s*\(` matches, so the code
scores 2, while the claim's literal-substring formula (`if (` with a
mandatory space) scores 1. -/
theorem claim_C2_counterexample :
    calculateComplexityScore "if(".data = 2 ∧
    specComplexityScore "if(".data = 1 ∧
    (2 : ℚ) ≠ 1 := by
  refine ⟨by with_unfolding_all rfl, by with_unfolding_all rfl, by norm_num⟩

/-- C2 (amended): for every content string, the complexity score equals
round-to-2-decimals of 1 + (number of regex occurrences of `if`, `for`,
`while`, `switch`, `catch` each followed by optional whitespace and `(`)
+ 0.5 × (maximum brace depth) + 0.3 × (number of occurrences of
`function` followed by whitespace and an identifier); consequently the
score is always ≥ 1, and content with none of these signals, such as
`// Just a comment`, yields exactly 1. -/
theorem claim_C2_amended :
    (∀ content : JStr,
      calculateComplexityScore content =
        (jsMathRound
          ((1
            + countMatches (tryMatchKwParen "if".data) content
            + countMatches (tryMatchKwParen "for".data) content
            + countMatches (tryMatchKwParen "while".data) content
            + countMatches (tryMatchKwParen "switch".data) content
            + countMatches (tryMatchKwParen "catch".data) content
            + (calculateMaxBraceDepth content) * (1 / 2)
            + (countMatches tryMatchFunctionWord content) * (3 / 10)) * 100) : ℚ) / 100
      ∧ 1 ≤ calculateComplexityScore content) ∧
    calculateComplexityScore "// Just a comment".data = 1 := by
  refine ⟨fun content => ⟨rfl, one_le_calculateComplexityScore content⟩, ?_⟩
  with_unfolding_all rfl

/-!
Source: `src/server/src/handlers/analyze_code_file.ts`, function
`extractFunctions` (lines 123–197): a line-oriented scanner for named
function declarations and arrow functions, with a brace-balance scan to
find a named function's last line.
-/

/-- Model of JavaScript `content.split('\n')`: the empty string yields one
empty piece, and every newline starts a new piece. -/
def splitOnNl : JStr → List JStr
  | [] => [[]]
  | c :: cs =>
    match splitOnNl cs with
    | [] => [[]]
    | l :: ls => if c = '\n' then [] :: l :: ls else (c :: l) :: ls

/-- Consume the keyword `kw` followed by at least one whitespace character
(regex `kw\s+`), returning the remainder. -/
def consumeKwWsPlus (kw : JStr) (s : JStr) : Option JStr :=
  if kw.isPrefixOf s then
    let r := s.drop kw.length
    let w := (r.takeWhile jsWs).length
    if w = 0 then none else some (r.drop w)
  else none

/-- Optional-group combinator: consume if possible, else stay.  The regex
groups modelled with it (`(export\s+)?`, `(async\s+)?`) commit
deterministically: whenever the group matches, the following mandatory
literal can never match at the unconsumed position, so no backtracking
into the skipped alternative is possible. -/
def optConsume (f : JStr → Option JStr) (s : JStr) : JStr :=
  match f s with
  | some r => r
  | none => s

/-- Match of the named-function regex
`^(export\s+)?(async\s+)?function\s+(\w+)\s*\([^)]*\)` against a trimmed
line; returns the captured function name. -/
def matchNamedFunction (line : JStr) : Option JStr :=
  let s1 := optConsume (consumeKwWsPlus "export".data) line
  let s2 := optConsume (consumeKwWsPlus "async".data) s1
  match consumeKwWsPlus "function".data s2 with
  | none => none
  | some s3 =>
    let name := s3.takeWhile jsWord
    if name.isEmpty then none
    else
      match (s3.drop name.length).dropWhile jsWs with
      | '(' :: rest => if rest.any (fun c => c = ')') then some name else none
      | _ => none

/-- Match of the arrow-function regex
`^(export\s+)?(const|let|var)\s+(\w+)\s*=\s*(async\s*)?\([^)]*\)\s*=>`
against a trimmed line; returns the captured variable name. -/
def matchArrowFunction (line : JStr) : Option JStr :=
  let s1 := optConsume (consumeKwWsPlus "export".data) line
  let kwRest :=
    match consumeKwWsPlus "const".data s1 with
    | some r => some r
    | none =>
      match consumeKwWsPlus "let".data s1 with
      | some r => some r
      | none => consumeKwWsPlus "var".data s1
  match kwRest with
  | none => none
  | some s2 =>
    let name := s2.takeWhile jsWord
    if name.isEmpty then none
    else
      match (s2.drop name.length).dropWhile jsWs with
      | '=' :: s4 =>
        let s5 := s4.dropWhile jsWs
        let s6 := if ("async".data).isPrefixOf s5 then (s5.drop 5).dropWhile jsWs else s5
        match s6 with
        | '(' :: rest =>
          match rest.drop ((rest.takeWhile (fun c => !(c = ')'))).length) with
          | ')' :: tail => if ("=>".data).isPrefixOf (tail.dropWhile jsWs) then some name else none
          | _ => none
        | _ => none
      | _ => none

/-- Inner character loop of the named-function end scan: threads the brace
count and the found-open-brace flag; the third component reports whether
the loop hit `foundOpenBrace && braceCount === 0` right after a closing
brace and broke out. -/
def scanLineChars : JStr → ℤ → Bool → ℤ × Bool × Bool
  | [], c, f => (c, f, false)
  | ch :: rest, c, f =>
    if ch = lbrace then scanLineChars rest (c + 1) true
    else if ch = rbrace then
      if f = true ∧ c - 1 = 0 then (c - 1, f, true)
      else scanLineChars rest (c - 1) f
    else scanLineChars rest c f

/-- Outer line loop of the named-function end scan.  `j` is the absolute
0-based index of the current line and `fb` the fallback value (the start
line).  A line whose inner loop broke yields `j + 1`; otherwise the outer
loop stops (keeping the fallback) when the flag is set and the count is
zero, as the source does after the inner loop. -/
def findEndAux : List JStr → Nat → ℤ → Bool → Nat → Nat
  | [], _, _, _, fb => fb
  | l :: rest, j, c, f, fb =>
    match scanLineChars l c f with
    | (_, _, true) => j + 1
    | (c1, f1, false) =>
      if f1 = true ∧ c1 = 0 then fb
      else findEndAux rest (j + 1) c1 f1 fb

/-- The brace-balance scan that computes `lineEnd` for a named function
found on 0-based line `i`. -/
def findLineEnd (ls : List JStr) (i : Nat) : Nat :=
  findEndAux (ls.drop i) i 0 false (i + 1)

/-- An extracted function record, as inserted into `code_functions`
(row identity is generated by the external store and is not modelled). -/
structure FunctionRec where
  name : JStr
  signature : JStr
  line_start : Nat
  line_end : Nat
deriving DecidableEq, Repr

/-- Model of `extractFunctions(content, language)`.  The JavaScript guard
`language === 'javascript' || language === 'typescript' || !language`
treats both `null` and the empty string as falsy. -/
def extractFunctions (content : JStr) (language : Option JStr) : List FunctionRec :=
  if language = some "javascript".data ∨ language = some "typescript".data ∨
      jsFalsyStr language = true then
    (List.range (splitOnNl content).length).flatMap (fun i =>
      (match matchNamedFunction (jsTrim ((splitOnNl content).getD i [])) with
       | some nm =>
         [⟨nm, jsTrim ((splitOnNl content).getD i []), i + 1, findLineEnd (splitOnNl content) i⟩]
       | none => []) ++
      (match matchArrowFunction (jsTrim ((splitOnNl content).getD i [])) with
       | some nm => [⟨nm, jsTrim ((splitOnNl content).getD i []), i + 1, i + 1⟩]
       | none => []))
  else []

/-- Signed brace balance of a character sequence. -/
def braceBal : JStr → ℤ
  | [] => 0
  | c :: cs => (if c = lbrace then (1 : ℤ) else if c = rbrace then -1 else 0) + braceBal cs

/-- Brace balance adds over concatenation. -/
lemma braceBal_append (a b : JStr) : braceBal (a ++ b) = braceBal a + braceBal b := by
  induction a with
  | nil => simp [braceBal]
  | cons c cs ih => simp [braceBal, ih]; ring

/-- The scan from claim C4's hypothesis never both sees an opening brace
and returns the running balance to zero: no prefix of `cs` that contains
an opening brace has balance zero. -/
def noZeroAfterOpen (cs : JStr) : Prop :=
  ∀ n, n ≤ cs.length → ¬(lbrace ∈ cs.take n ∧ braceBal (cs.take n) = 0)

instance (cs : JStr) : Decidable (noZeroAfterOpen cs) := by
  unfold noZeroAfterOpen
  exact Nat.decidableBallLE cs.length _

/-- The end-line scan never returns less than the fallback or the current
line number. -/
lemma findEndAux_ge (lls : List JStr) :
    ∀ (j : Nat) (c : ℤ) (f : Bool) (fb : Nat), min fb (j + 1) ≤ findEndAux lls j c f fb := by
  induction lls with
  | nil => intro j c f fb; simp [findEndAux]
  | cons l rest ih =>
    intro j c f fb
    simp only [findEndAux]
    rcases hscan : scanLineChars l c f with ⟨c1, f1, b⟩
    cases b with
    | true => exact min_le_right _ _
    | false =>
      show min fb (j + 1) ≤ if f1 = true ∧ c1 = 0 then fb else findEndAux rest (j + 1) c1 f1 fb
      by_cases hb : f1 = true ∧ c1 = 0
      · rw [if_pos hb]; exact min_le_left _ _
      · rw [if_neg hb]
        calc min fb (j + 1) ≤ min fb (j + 1 + 1) := by omega
        _ ≤ findEndAux rest (j + 1) c1 f1 fb := ih _ _ _ _

/-- If no prefix with an open brace brings the balance (offset by the
incoming count) to zero, the inner character loop runs to the end of the
line without triggering, accumulating the line's balance and open-brace
flag. -/
lemma scanLineChars_no_trigger (l : JStr) :
    ∀ (c : ℤ) (f : Bool),
      (∀ p : JStr, p <+: l → ¬((f = true ∨ lbrace ∈ p) ∧ c + braceBal p = 0)) →
      scanLineChars l c f = (c + braceBal l, f || decide (lbrace ∈ l), false) := by
  induction l with
  | nil =>
    intro c f _
    simp [scanLineChars, braceBal]
  | cons ch rest ih =>
    intro c f H
    by_cases h1 : ch = lbrace
    · subst h1
      rw [scanLineChars, if_pos rfl]
      rw [ih (c + 1) true ?_]
      · have hb : braceBal (lbrace :: rest) = 1 + braceBal rest := by simp [braceBal]
        have harith : c + 1 + braceBal rest = c + braceBal (lbrace :: rest) := by
          rw [hb]; ring
        have hflag : (true || decide (lbrace ∈ rest)) = (f || decide (lbrace ∈ lbrace :: rest)) := by
          simp
        rw [harith, hflag]
      · intro p hp
        have h := H (lbrace :: p) ((List.cons_prefix_cons).mpr ⟨rfl, hp⟩)
        intro hc
        apply h
        have hb : braceBal (lbrace :: p) = 1 + braceBal p := by simp [braceBal]
        have h2 := hc.2
        exact ⟨Or.inr (by simp), by rw [hb]; omega⟩
    · by_cases h2 : ch = rbrace
      · subst h2
        have hrb : ¬(rbrace = lbrace) := by decide
        have hlrb : ¬(lbrace = rbrace) := by decide
        rw [scanLineChars, if_neg hrb, if_pos rfl]
        have hbal1 : braceBal [rbrace] = -1 := by simp [braceBal, hrb]
        have hnotrig : ¬(f = true ∧ c - 1 = 0) := by
          intro hc
          apply H [rbrace] ⟨rest, rfl⟩
          have h2 := hc.2
          exact ⟨Or.inl hc.1, by rw [hbal1]; omega⟩
        rw [if_neg hnotrig, ih (c - 1) f ?_]
        · have hb : braceBal (rbrace :: rest) = -1 + braceBal rest := by simp [braceBal, hrb]
          have harith : c - 1 + braceBal rest = c + braceBal (rbrace :: rest) := by
            rw [hb]; ring
          have hflag : (f || decide (lbrace ∈ rest)) = (f || decide (lbrace ∈ rbrace :: rest)) := by
            simp [List.mem_cons, hlrb]
          rw [harith, hflag]
        · intro p hp
          have h := H (rbrace :: p) ((List.cons_prefix_cons).mpr ⟨rfl, hp⟩)
          intro hc
          apply h
          have hb : braceBal (rbrace :: p) = -1 + braceBal p := by simp [braceBal, hrb]
          have h2 := hc.2
          refine ⟨?_, by rw [hb]; omega⟩
          rcases hc.1 with hf | hmem
          · exact Or.inl hf
          · exact Or.inr (List.mem_cons_of_mem _ hmem)
      · rw [scanLineChars, if_neg h1, if_neg h2]
        rw [ih c f ?_]
        · have hb : braceBal (ch :: rest) = braceBal rest := by simp [braceBal, h1, h2]
          have hlch : ¬(lbrace = ch) := fun hh => h1 hh.symm
          have harith : c + braceBal rest = c + braceBal (ch :: rest) := by rw [hb]
          have hflag : (f || decide (lbrace ∈ rest)) = (f || decide (lbrace ∈ ch :: rest)) := by
            simp [List.mem_cons, hlch]
          rw [harith, hflag]
        · intro p hp
          have h := H (ch :: p) ((List.cons_prefix_cons).mpr ⟨rfl, hp⟩)
          intro hc
          apply h
          have hb : braceBal (ch :: p) = braceBal p := by simp [braceBal, h1, h2]
          have h2' := hc.2
          refine ⟨?_, by rw [hb]; omega⟩
          rcases hc.1 with hf | hmem
          · exact Or.inl hf
          · exact Or.inr (List.mem_cons_of_mem _ hmem)

/-- If no prefix of the remaining character stream both contains an open
brace and has balance zero (offset by the incoming state), the outer line
loop runs off the end of the file and returns the fallback line. -/
lemma findEndAux_no_trigger (lls : List JStr) :
    ∀ (j : Nat) (c : ℤ) (f : Bool) (fb : Nat),
      (∀ p : JStr, p <+: lls.flatten → ¬((f = true ∨ lbrace ∈ p) ∧ c + braceBal p = 0)) →
      findEndAux lls j c f fb = fb := by
  induction lls with
  | nil => intro j c f fb _; rfl
  | cons l rest ih =>
    intro j c f fb H
    have hscan := scanLineChars_no_trigger l c f (fun p hp =>
      H p (hp.trans (by rw [List.flatten_cons]; exact l.prefix_append rest.flatten)))
    simp only [findEndAux, hscan]
    have hbreak := H l (by rw [List.flatten_cons]; exact l.prefix_append rest.flatten)
    have hcond : ¬((f || decide (lbrace ∈ l)) = true ∧ c + braceBal l = 0) := by
      intro hc
      apply hbreak
      refine ⟨?_, hc.2⟩
      rcases Bool.or_eq_true _ _ |>.mp hc.1 with h' | h'
      · exact Or.inl h'
      · exact Or.inr (of_decide_eq_true h')
    show (if (f || decide (lbrace ∈ l)) = true ∧ c + braceBal l = 0 then fb
      else findEndAux rest (j + 1) (c + braceBal l) (f || decide (lbrace ∈ l)) fb) = fb
    rw [if_neg hcond]
    apply ih
    intro p hp
    obtain ⟨t, ht⟩ := hp
    have h := H (l ++ p) (by rw [List.flatten_cons, ← ht]; exact ⟨t, by simp⟩)
    rw [braceBal_append] at h
    intro hc
    apply h
    have h2 := hc.2
    refine ⟨?_, by omega⟩
    rcases hc.1 with hf | hmem
    · rcases Bool.or_eq_true _ _ |>.mp hf with h' | h'
      · exact Or.inl h'
      · exact Or.inr (List.mem_append_left _ (of_decide_eq_true h'))
    · exact Or.inr (List.mem_append_right _ hmem)

/-- Every extracted record comes from some 0-based line index `i`, starts
at line `i + 1`, and ends either at the brace scan's result (named
functions) or at its own start line (arrow functions). -/
lemma mem_extractFunctions {content : JStr} {language : Option JStr} {r : FunctionRec}
    (h : r ∈ extractFunctions content language) :
    ∃ i, i < (splitOnNl content).length ∧ r.line_start = i + 1 ∧
      (r.line_end = findLineEnd (splitOnNl content) i ∨ r.line_end = i + 1) := by
  unfold extractFunctions at h
  split at h
  · rw [List.mem_flatMap] at h
    obtain ⟨i, hi, hr⟩ := h
    rw [List.mem_range] at hi
    refine ⟨i, hi, ?_⟩
    rw [List.mem_append] at hr
    rcases hr with hr | hr
    · rcases hnm : matchNamedFunction (jsTrim ((splitOnNl content).getD i [])) with _ | nm
      · rw [hnm] at hr; simp at hr
      · rw [hnm] at hr
        simp only [List.mem_singleton] at hr
        subst hr
        exact ⟨rfl, Or.inl rfl⟩
    · rcases ham : matchArrowFunction (jsTrim ((splitOnNl content).getD i [])) with _ | nm
      · rw [ham] at hr; simp at hr
      · rw [ham] at hr
        simp only [List.mem_singleton] at hr
        subst hr
        exact ⟨rfl, Or.inr rfl⟩
  · simp at h

/-- C3 counterexample: the empty string is a language value that is
neither `javascript`, `typescript`, nor null, yet the JavaScript guard
`!language` treats it as falsy and extraction proceeds: the extractor
returns a non-empty list for it. -/
theorem claim_C3_counterexample :
    ¬(some ([] : JStr) = some "javascript".data) ∧
    ¬(some ([] : JStr) = some "typescript".data) ∧
    ¬(some ([] : JStr) = (none : Option JStr)) ∧
    extractFunctions "function f() \x7b\x7d".data (some ([] : JStr)) ≠ [] := by
  refine ⟨by decide, by decide, by decide, by decide⟩

/-- C3 (amended): for every content string and every language value that
is neither `javascript`, nor `typescript`, nor unspecified (null), nor the
empty string (which the JavaScript truthiness guard also lets through),
the Function Extractor returns an empty sequence. -/
theorem claim_C3_scope (content : JStr) (l : JStr)
    (h1 : l ≠ "javascript".data) (h2 : l ≠ "typescript".data) (h3 : l ≠ []) :
    extractFunctions content (some l) = [] := by
  unfold extractFunctions
  rw [if_neg]
  intro hor
  rcases hor with h | h | h
  · exact h1 (Option.some_inj.mp h)
  · exact h2 (Option.some_inj.mp h)
  · apply h3
    have : l.isEmpty = true := h
    simpa [List.isEmpty_iff] using this

/-- Witness for C3: a concrete non-JS language yields no records even on
content with a named function. -/
theorem claim_C3_witness :
    ("python".data ≠ "javascript".data) ∧ ("python".data ≠ "typescript".data) ∧
    ("python".data ≠ ([] : JStr)) ∧
    extractFunctions "function f() \x7b\x7d".data (some "python".data) = [] :=
  ⟨by decide, by decide, by decide,
    claim_C3_scope _ _ (by decide) (by decide) (by decide)⟩

/-- C4: every record produced by the Function Extractor satisfies
`line_end ≥ line_start`; and whenever the brace-balance scan of the
content from the record's start line onward never both opens a brace and
returns the balance to zero, `line_end` equals `line_start` (this covers
the unbalanced named-function fallback, and arrow records trivially). -/
theorem claim_C4_line_spans (content : JStr) (language : Option JStr) (r : FunctionRec)
    (hr : r ∈ extractFunctions content language) :
    r.line_start ≤ r.line_end ∧
    (noZeroAfterOpen (((splitOnNl content).drop (r.line_start - 1)).flatten) →
      r.line_end = r.line_start) := by
  obtain ⟨i, hi, hstart, hend⟩ := mem_extractFunctions hr
  have hidx : r.line_start - 1 = i := by omega
  constructor
  · rcases hend with he | he
    · rw [hstart, he]
      have hge := findEndAux_ge ((splitOnNl content).drop i) i 0 false (i + 1)
      rw [min_self] at hge
      exact hge
    · rw [hstart, he]
  · intro H
    rcases hend with he | he
    · rw [hstart, he]
      rw [hidx] at H
      apply findEndAux_no_trigger
      intro p hp
      have hlen := hp.length_le
      have hpe : p = (((splitOnNl content).drop i).flatten).take p.length :=
        List.prefix_iff_eq_take.mp hp
      have hH := H p.length (by simpa using hlen)
      rw [← hpe] at hH
      intro hc
      apply hH
      rcases hc.1 with hf | hm
      · exact absurd hf (by simp)
      · have h2 := hc.2
        exact ⟨hm, by omega⟩
    · rw [hstart, he]

/-- Witness for C4: the single-line content `function f() \x7b` (with an
unclosed brace) yields the record with start and end line 1; the scan
hypothesis holds and the conclusion gives equality. -/
theorem claim_C4_witness :
    (⟨"f".data, "function f() \x7b".data, 1, 1⟩ : FunctionRec) ∈
        extractFunctions "function f() \x7b".data none ∧
    noZeroAfterOpen (((splitOnNl "function f() \x7b".data).drop 0).flatten) ∧
    (1 : Nat) ≤ 1 ∧ (1 : Nat) = 1 := by
  have hmem : (⟨"f".data, "function f() \x7b".data, 1, 1⟩ : FunctionRec) ∈
      extractFunctions "function f() \x7b".data none := by decide
  have hnz : noZeroAfterOpen (((splitOnNl "function f() \x7b".data).drop 0).flatten) := by
    decide
  have h := claim_C4_line_spans "function f() \x7b".data none
    ⟨"f".data, "function f() \x7b".data, 1, 1⟩ hmem
  exact ⟨hmem, hnz, h.1, h.2 hnz⟩

/-!
Data model: rows of the PostgreSQL tables declared in
`src/server/src/db/schema.ts`, and the store holding them.  Serial row
ids of `code_functions`, `code_issues`, `code_dependencies` and
`search_queries` and the `created_at` timestamps are generated by the
external store and play no role in the handlers, so they are not
modelled; timestamps that the handlers do write (`last_updated`) are
modelled as abstract `Nat` instants supplied by the environment.
-/

/-- Row of the `repositories` table. -/
structure Repository where
  id : Nat
  github_url : JStr
  name : JStr
  description : Option JStr
  owner : JStr
  default_branch : JStr
deriving DecidableEq, Repr

/-- Row of the `code_files` table (`complexity_score` is `numeric` in the
database and converted back to a number by the handlers; it is modelled
directly as `ℚ`). -/
structure CodeFile where
  id : Nat
  repository_id : Nat
  path : JStr
  content : JStr
  language : Option JStr
  size : Nat
  ai_summary : Option JStr
  complexity_score : Option ℚ
  last_updated : Nat
  created_at : Nat
deriving DecidableEq, Repr

/-- Row of the `code_functions` table. -/
structure CodeFunction where
  file_id : Nat
  name : JStr
  signature : JStr
  line_start : Nat
  line_end : Nat
  ai_explanation : Option JStr
  complexity_score : Option ℚ
deriving DecidableEq, Repr

/-- Row of the `code_issues` table (the enum columns are carried as their
string values). -/
structure CodeIssue where
  file_id : Nat
  issue_type : JStr
  severity : JStr
  description : JStr
  line_number : Option Nat
  suggestion : Option JStr
deriving DecidableEq, Repr

/-- Row of the `code_dependencies` table. -/
structure CodeDependency where
  repository_id : Nat
  from_file : JStr
  to_file : JStr
  dependency_type : JStr
deriving DecidableEq, Repr

/-- Row of the `search_queries` analytics table. -/
structure SearchQueryRow where
  repository_id : Nat
  query : JStr
  query_type : JStr
  results_count : Nat
deriving DecidableEq, Repr

/-- The external record store (the database), with rows in insertion
order. -/
structure Store where
  repositories : List Repository
  codeFiles : List CodeFile
  codeFunctions : List CodeFunction
  codeIssues : List CodeIssue
  codeDependencies : List CodeDependency
  searchQueries : List SearchQueryRow
deriving DecidableEq, Repr

/-- The empty store. -/
def emptyStore : Store := ⟨[], [], [], [], [], []⟩

/-!
SQL `LIKE` / `ILIKE` pattern matching as used through drizzle's `ilike`:
`%` matches any sequence, `_` any single character, everything else
itself; `ILIKE` compares case-insensitively.  The recursion is structural
on the pattern so that it evaluates inside the kernel.
-/

/-- Whole-string SQL `LIKE` match of `s` against `pat`. -/
def likeMatch : (pat : List Char) → (s : JStr) → Bool
  | [], s => s.isEmpty
  | p :: ps, s =>
    if p = '%' then s.tails.any (fun t => likeMatch ps t)
    else
      match s with
      | [] => false
      | c :: t => (if p = '_' then true else p == c) && likeMatch ps t

/-- Case-insensitive `ILIKE` of a column value against a pattern. -/
def iLike (col : JStr) (pattern : JStr) : Bool :=
  likeMatch (toLowerStr pattern) (toLowerStr col)

/-- `ilike(col, `%needle%`)`: the pattern built by the handlers around a
user-supplied string (which may itself contain wildcards). -/
def iLikeContains (col : JStr) (needle : JStr) : Bool :=
  iLike col ('%' :: (needle ++ ['%']))

/-- `ILIKE` on a nullable column: SQL `NULL` never matches. -/
def iLikeOpt (col : Option JStr) (pattern : JStr) : Bool :=
  match col with
  | none => false
  | some c => iLike c pattern

/-- `ILIKE` with `%needle%` on a nullable column. -/
def iLikeContainsOpt (col : Option JStr) (needle : JStr) : Bool :=
  match col with
  | none => false
  | some c => iLikeContains c needle

/-- Decimal rendering of a `Nat`, for JavaScript template strings. -/
def natToJStr (n : Nat) : JStr := (Nat.repr n).data

/-- JavaScript `x || dflt` on a nullable string: `null` and the empty
string fall back to the default. -/
def jsOrElse (o : Option JStr) (dflt : JStr) : JStr :=
  match o with
  | none => dflt
  | some s => if s.isEmpty then dflt else s

/-!
Source: `src/server/src/handlers/search_code.ts`, function `searchCode`.
The handler filters candidate files in SQL, scans their lines, scores each
matching line, logs one analytics row with the pre-truncation result
count, then returns the results sorted by score descending and truncated
to 50.
-/

/-- Input of the search handler (`searchCodeInputSchema`). -/
structure SearchCodeInput where
  repository_id : Nat
  query : JStr
  file_types : Option (List JStr)
  include_ai_analysis : Bool
deriving DecidableEq, Repr

/-- A search hit (`searchResultSchema`). -/
structure SearchResult where
  file_path : JStr
  line_number : Nat
  content_snippet : JStr
  relevance_score : ℚ
  ai_context : Option JStr
deriving DecidableEq, Repr

/-- The SQL `WHERE` clause of the search: same repository, language
`ILIKE` one of the requested file types (when any were given), and path
or content containing the query case-insensitively. -/
def searchFileFilter (inp : SearchCodeInput) (f : CodeFile) : Bool :=
  f.repository_id == inp.repository_id &&
  (match inp.file_types with
   | none => true
   | some fts =>
     if fts.isEmpty then true else fts.any (fun ft => iLikeOpt f.language ft)) &&
  (iLikeContains f.path inp.query || iLikeContains f.content inp.query)

/-- Per-line relevance score: base 0.5, +0.3 when the line contains the
query with exact case, +0.2 when the lowercased line with leading
whitespace removed starts with the lowercased query, capped at 1.0.
The JavaScript doubles 0.5, 0.7, 0.8 and 1.0 that can arise here are
exactly the rationals used (0.5+0.3 and 0.5+0.3+0.2 round back to 0.8 and
1.0 in IEEE double arithmetic). -/
def lineRelevance (query line : JStr) : ℚ :=
  min 1
    (1 / 2
      + (if jsIncludes line query = true then (3 : ℚ) / 10 else 0)
      + (if (toLowerStr query).isPrefixOf (jsTrimStart (toLowerStr line)) = true
         then (1 : ℚ) / 5 else 0))

/-- The `content_snippet`: the matched line with one line of context
before and after, clamped to the file, joined with newlines. -/
def snippetAt (lines : List JStr) (i : Nat) : JStr :=
  List.intercalate ['\n']
    ((lines.drop (i - 1)).take (min (lines.length - 1) (i + 1) + 1 - (i - 1)))

/-- The optional `ai_context` string for a hit in `file` at 0-based line
`i` (JavaScript truthiness: an empty `ai_summary` falls back to the
template). -/
def aiContextFor (file : CodeFile) (i : Nat) : JStr :=
  match file.ai_summary with
  | some s =>
    if s.isEmpty then
      "Match found in ".data ++ jsOrElse file.language "unknown".data
        ++ " file at line ".data ++ natToJStr (i + 1)
    else "From file analysis: ".data ++ s
  | none =>
    "Match found in ".data ++ jsOrElse file.language "unknown".data
      ++ " file at line ".data ++ natToJStr (i + 1)

/-- The line scan of one candidate file: one `SearchResult` per line whose
lowercase form contains the lowercase query, in line order. -/
def fileLineResults (inp : SearchCodeInput) (file : CodeFile) : List SearchResult :=
  (List.range (splitOnNl file.content).length).filterMap (fun i =>
    if jsIncludes (toLowerStr ((splitOnNl file.content).getD i []))
        (toLowerStr inp.query) = true then
      some
        { file_path := file.path
          line_number := i + 1
          content_snippet := snippetAt (splitOnNl file.content) i
          relevance_score := lineRelevance inp.query ((splitOnNl file.content).getD i [])
          ai_context :=
            if inp.include_ai_analysis then some (aiContextFor file i) else none }
    else none)

/-- All raw results of a search call, across candidate files, before
sorting and truncation. -/
def searchRawResults (inp : SearchCodeInput) (st : Store) : List SearchResult :=
  (st.codeFiles.filter (searchFileFilter inp)).flatMap (fileLineResults inp)

/-- Model of `searchCode(input)`: returns the store after the analytics
insert together with the response list (sorted by relevance descending
with JavaScript's stable sort, truncated to 50).  The analytics row is
written unconditionally — no repository existence check — and records
`results.length` as it is before sorting and truncation. -/
def searchCode (inp : SearchCodeInput) (st : Store) : Store × List SearchResult :=
  ({ st with
      searchQueries := st.searchQueries ++
        [⟨inp.repository_id, inp.query, "code".data, (searchRawResults inp st).length⟩] },
   ((searchRawResults inp st).mergeSort
      (fun a b => decide (b.relevance_score ≤ a.relevance_score))).take 50)

/-- Per-line relevance as the specification words it (claim C5): the
+0.2 bonus tests whether the *trimmed* (both ends) lowercased line starts
with the lowercased query, where the source only strips leading
whitespace. -/
def specLineRelevance (query line : JStr) : ℚ :=
  min 1
    (1 / 2
      + (if jsIncludes line query = true then (3 : ℚ) / 10 else 0)
      + (if (toLowerStr query).isPrefixOf (jsTrim (toLowerStr line)) = true
         then (1 : ℚ) / 5 else 0))

/-- C1 counterexample: one candidate file with 51 matching lines.  The
analytics row records 51 — the pre-truncation count — while the returned
array has length 50, so the recorded count is not the returned length. -/
theorem claim_C1_counterexample :
    ((searchCode ⟨1, "q".data, none, false⟩
        ⟨[], [⟨1, 1, "q.ts".data, List.intercalate ['\n'] (List.replicate 51 ['q']),
          none, 101, none, none, 0, 0⟩], [], [], [], []⟩).1.searchQueries.map
        (fun row => row.results_count)) = [51] ∧
    ((searchCode ⟨1, "q".data, none, false⟩
        ⟨[], [⟨1, 1, "q.ts".data, List.intercalate ['\n'] (List.replicate 51 ['q']),
          none, 101, none, none, 0, 0⟩], [], [], [], []⟩).2).length = 50 ∧
    (51 : Nat) ≠ 50 :=
  ⟨by with_unfolding_all rfl, by with_unfolding_all rfl, by decide⟩

/-- C1 (amended): every search call appends exactly one analytics row —
regardless of whether the repository exists — whose `results_count` is the
number of matched lines before sorting and truncation; that count equals
the returned array's length whenever at most 50 lines matched (in
particular it is 0 when nothing matched). -/
theorem claim_C1_analytics (inp : SearchCodeInput) (st : Store) :
    (searchCode inp st).1.searchQueries =
      st.searchQueries ++
        [⟨inp.repository_id, inp.query, "code".data, (searchRawResults inp st).length⟩] ∧
    ((searchRawResults inp st).length ≤ 50 →
      ((searchCode inp st).2).length = (searchRawResults inp st).length) := by
  refine ⟨rfl, fun hle => ?_⟩
  show (((searchRawResults inp st).mergeSort
      (fun a b => decide (b.relevance_score ≤ a.relevance_score))).take 50).length =
    (searchRawResults inp st).length
  rw [List.length_take, List.length_mergeSort]
  omega

/-- Witness for C1: a search against the empty store (a repository id that
does not exist) appends exactly one row with count 0. -/
theorem claim_C1_witness :
    (searchCode ⟨1, "q".data, none, false⟩ emptyStore).1.searchQueries =
      [⟨1, "q".data, "code".data, 0⟩] ∧
    ((searchCode ⟨1, "q".data, none, false⟩ emptyStore).2).length =
      (searchRawResults ⟨1, "q".data, none, false⟩ emptyStore).length := by
  have h := claim_C1_analytics ⟨1, "q".data, none, false⟩ emptyStore
  constructor
  · rw [h.1]
    with_unfolding_all rfl
  · exact h.2 (by decide)

/-- C5 counterexample: for the query `x ` (trailing space) against a file
whose content is the line `x `, the emitted result carries score 1.0
(the source strips only leading whitespace before the starts-with test),
while the claim's formula — which trims both ends — yields 0.8. -/
theorem claim_C5_counterexample :
    (searchCode ⟨1, "x ".data, none, false⟩
        ⟨[], [⟨1, 1, "a.ts".data, "x ".data, none, 2, none, none, 0, 0⟩],
          [], [], [], []⟩).2 =
      [⟨"a.ts".data, 1, "x ".data, 1, none⟩] ∧
    specLineRelevance "x ".data "x ".data = 4 / 5 ∧
    (1 : ℚ) ≠ 4 / 5 :=
  ⟨by with_unfolding_all rfl, by with_unfolding_all rfl, by norm_num⟩

/-- C5 (amended): every matched line emitted by the search scan is scored
`min 1 (0.5 + 0.3·[contains query, exact case] + 0.2·[lowercased line
with leading whitespace removed starts with lowercased query])`; in
particular, for query `calculate` against a file whose content is exactly
`calculate`, the sole result has relevance score 1. -/
theorem claim_C5_relevance :
    (∀ (inp : SearchCodeInput) (f : CodeFile) (r : SearchResult),
      r ∈ fileLineResults inp f →
      r.relevance_score =
        min 1
          (1 / 2
            + (if jsIncludes ((splitOnNl f.content).getD (r.line_number - 1) [])
                  inp.query = true then (3 : ℚ) / 10 else 0)
            + (if (toLowerStr inp.query).isPrefixOf
                  (jsTrimStart (toLowerStr ((splitOnNl f.content).getD (r.line_number - 1) [])))
                  = true then (1 : ℚ) / 5 else 0))) ∧
    (searchCode ⟨1, "calculate".data, none, false⟩
        ⟨[], [⟨1, 1, "calc.ts".data, "calculate".data, some "typescript".data, 9,
          none, none, 0, 0⟩], [], [], [], []⟩).2 =
      [⟨"calc.ts".data, 1, "calculate".data, 1, none⟩] := by
  constructor
  · intro inp f r hr
    unfold fileLineResults at hr
    rw [List.mem_filterMap] at hr
    obtain ⟨i, hi, hgi⟩ := hr
    rw [List.mem_range] at hi
    split at hgi
    · rw [Option.some_inj] at hgi
      subst hgi
      show lineRelevance inp.query ((splitOnNl f.content).getD i []) = _
      have hidx : i + 1 - 1 = i := by omega
      rw [hidx]
      rfl
    · exact absurd hgi (by simp)
  · with_unfolding_all rfl

/-- Witness for C5: the `calculate` hit instantiates the per-line scoring
equation. -/
theorem claim_C5_witness :
    (⟨"calc.ts".data, 1, "calculate".data, 1, none⟩ : SearchResult) ∈
      fileLineResults ⟨1, "calculate".data, none, false⟩
        ⟨1, 1, "calc.ts".data, "calculate".data, some "typescript".data, 9,
          none, none, 0, 0⟩ ∧
    (1 : ℚ) =
      min 1
        (1 / 2
          + (if jsIncludes ((splitOnNl "calculate".data).getD 0 []) "calculate".data = true
             then (3 : ℚ) / 10 else 0)
          + (if (toLowerStr "calculate".data).isPrefixOf
                (jsTrimStart (toLowerStr ((splitOnNl "calculate".data).getD 0 [])))
                = true then (1 : ℚ) / 5 else 0)) := by
  have hlist : fileLineResults ⟨1, "calculate".data, none, false⟩
      ⟨1, 1, "calc.ts".data, "calculate".data, some "typescript".data, 9,
        none, none, 0, 0⟩ =
      [⟨"calc.ts".data, 1, "calculate".data, 1, none⟩] := by
    with_unfolding_all rfl
  have hmem : (⟨"calc.ts".data, 1, "calculate".data, 1, none⟩ : SearchResult) ∈
      fileLineResults ⟨1, "calculate".data, none, false⟩
        ⟨1, 1, "calc.ts".data, "calculate".data, some "typescript".data, 9,
          none, none, 0, 0⟩ := by
    rw [hlist]
    exact List.mem_singleton.mpr rfl
  exact ⟨hmem, claim_C5_relevance.1 _ _ _ hmem⟩

/-- C6: the returned result list of every search call is sorted
non-increasing by relevance score and has length at most 50. -/
theorem claim_C6_sorted_truncated (inp : SearchCodeInput) (st : Store) :
    ((searchCode inp st).2).Pairwise
      (fun a b => b.relevance_score ≤ a.relevance_score) ∧
    ((searchCode inp st).2).length ≤ 50 := by
  constructor
  · have hs := @List.sorted_mergeSort SearchResult
      (fun a b : SearchResult => decide (b.relevance_score ≤ a.relevance_score))
      (fun a b c hab hbc => by
        rw [decide_eq_true_eq] at hab hbc ⊢
        exact le_trans hbc hab)
      (fun a b => by
        rcases le_total a.relevance_score b.relevance_score with h | h
        · simp [h]
        · simp [h])
      (searchRawResults inp st)
    have hs2 : ((searchRawResults inp st).mergeSort
        (fun a b => decide (b.relevance_score ≤ a.relevance_score))).Pairwise
        (fun a b => b.relevance_score ≤ a.relevance_score) :=
      hs.imp (fun h => by rwa [decide_eq_true_eq] at h)
    exact hs2.sublist (List.take_sublist _ _)
  · exact List.length_take_le _ _

/-!
Source: `src/server/src/handlers/natural_language_query.ts`: keyword
extraction with stop words and domain expansion, keyword-driven selection
of files, functions and issues, and templated summary/suggestion
synthesis.  The handler performs no store writes.
-/

/-- Input of the question-answering handler
(`naturalLanguageQueryInputSchema`). -/
structure NaturalLanguageQueryInput where
  repository_id : Nat
  question : JStr
  context_files : Option (List JStr)
deriving DecidableEq, Repr

/-- The structured answer (`aiAnalysisResponseSchema`). -/
structure AiAnalysisResponse where
  summary : JStr
  key_functions : List JStr
  potential_issues : List JStr
  suggestions : List JStr
  related_files : List JStr
deriving DecidableEq, Repr

/-- The stop-word table of `extractKeywords`, in source order (the source
wraps it in a `Set`, so the duplicated entries are harmless). -/
def stopWords : List JStr :=
  ["what".data, "where".data, "when".data, "why".data, "how".data, "who".data,
   "which".data, "can".data, "could".data, "should".data, "would".data, "is".data,
   "are".data, "was".data, "were".data, "be".data, "been".data, "being".data,
   "have".data, "has".data, "had".data, "do".data, "does".data, "did".data,
   "will".data, "would".data, "could".data, "the".data, "a".data, "an".data,
   "and".data, "or".data, "but".data, "in".data, "on".data, "at".data, "to".data,
   "for".data, "of".data, "with".data, "by".data, "from".data, "up".data,
   "about".data, "into".data, "through".data, "during".data, "before".data,
   "after".data, "above".data, "below".data, "between".data, "among".data,
   "this".data, "that".data, "these".data, "those".data, "i".data, "me".data,
   "my".data, "myself".data, "we".data, "our".data, "ours".data,
   "ourselves".data, "you".data, "your".data, "yours".data, "yourself".data,
   "yourselves".data]

/-- The regex replacement `replace(/[^\w\s]/g, ' ')`: every character that
is neither a word character nor whitespace becomes a space. -/
def mapNonWordToSpace (s : JStr) : JStr :=
  s.map (fun c => if jsWord c || jsWs c then c else ' ')

/-- Helper for `split(/\s+/)`: `cur` is the current token reversed and
`prevWs` records whether the previous character was whitespace (so that a
run of whitespace produces a single boundary). -/
def splitWsGo : JStr → JStr → Bool → List JStr
  | [], cur, _ => [cur.reverse]
  | c :: cs, cur, prevWs =>
    if jsWs c then
      if prevWs then splitWsGo cs cur true
      else cur.reverse :: splitWsGo cs [] true
    else splitWsGo cs (c :: cur) false

/-- JavaScript `s.split(/\s+/)`: pieces between maximal whitespace runs,
with an empty leading/trailing piece when the string starts/ends with
whitespace. -/
def splitWsRuns (s : JStr) : List JStr := splitWsGo s [] false

/-- First-occurrence deduplication, as `[...new Set(xs)]` does. -/
def dedupFirstGo (seen : List JStr) : List JStr → List JStr
  | [] => []
  | x :: xs =>
    if seen.contains x then dedupFirstGo seen xs
    else x :: dedupFirstGo (x :: seen) xs

/-- First-occurrence deduplication of a string list. -/
def dedupFirst (l : List JStr) : List JStr := dedupFirstGo [] l

/-- Model of `extractKeywords(question)`: lowercase, strip punctuation,
split on whitespace, keep tokens of length > 2 outside the stop-word set,
append the three domain expansions, deduplicate and cap at 15. -/
def extractKeywords (question : JStr) : List JStr :=
  let baseKeywords := (splitWsRuns (mapNonWordToSpace (toLowerStr question))).filter
    (fun w => decide (w.length > 2) && !(stopWords.contains w))
  (dedupFirst (baseKeywords
    ++ (if baseKeywords.contains "authentication".data
          || baseKeywords.contains "authenticate".data then
          ["auth".data, "login".data, "user".data, "validate".data, "credential".data]
        else [])
    ++ (if baseKeywords.contains "security".data
          || baseKeywords.contains "secure".data then
          ["vulnerability".data, "validation".data, "sanitize".data, "xss".data,
           "injection".data]
        else [])
    ++ (if baseKeywords.contains "performance".data
          || baseKeywords.contains "optimize".data then
          ["slow".data, "speed".data, "efficiency".data, "complexity".data]
        else []))).take 15

/-- The file-selection step of the question-answering handler: context
files first (when given and non-empty), else keyword match on path,
content or AI summary, else the first 10 files of the repository. -/
def selectRelevantFiles (inp : NaturalLanguageQueryInput) (st : Store) : List CodeFile :=
  if (match inp.context_files with
      | some cfs => !cfs.isEmpty
      | none => false) then
    ((st.codeFiles.filter (fun f => f.repository_id == inp.repository_id)).filter
      (fun f => (inp.context_files.getD []).any (fun cf => iLikeContains f.path cf))).take 10
  else if !(extractKeywords inp.question).isEmpty then
    ((st.codeFiles.filter (fun f => f.repository_id == inp.repository_id)).filter
      (fun f => (extractKeywords inp.question).any (fun kw =>
        iLikeContains f.path kw || iLikeContains f.content kw
          || iLikeContainsOpt f.ai_summary kw))).take 10
  else (st.codeFiles.filter (fun f => f.repository_id == inp.repository_id)).take 10

/-- Whether a function row matches any keyword in name, signature or
(truthy) AI explanation, case-insensitively. -/
def functionMatchesKeywords (keywords : List JStr) (fn : CodeFunction) : Bool :=
  keywords.any (fun kw =>
    jsIncludes (toLowerStr fn.name) kw ||
    jsIncludes (toLowerStr fn.signature) kw ||
    (match fn.ai_explanation with
     | some e => !e.isEmpty && jsIncludes (toLowerStr e) kw
     | none => false))

/-- The function-selection step: fetch up to 10 functions of the selected
files, put keyword-matching ones first (the source's
`!matchingFunctions.includes(func)` compares object references, so the
non-matching part is exactly the complement filter), take 5 names. -/
def selectKeyFunctions (inp : NaturalLanguageQueryInput) (st : Store)
    (files : List CodeFile) : List JStr :=
  if files.isEmpty then []
  else
    if !(extractKeywords inp.question).isEmpty then
      ((((st.codeFunctions.filter
            (fun fn => (files.map (fun f => f.id)).contains fn.file_id)).take 10).filter
          (functionMatchesKeywords (extractKeywords inp.question))
        ++ ((st.codeFunctions.filter
            (fun fn => (files.map (fun f => f.id)).contains fn.file_id)).take 10).filter
          (fun fn => !(functionMatchesKeywords (extractKeywords inp.question) fn))).take 5).map
        (fun fn => fn.name)
    else
      (((st.codeFunctions.filter
          (fun fn => (files.map (fun f => f.id)).contains fn.file_id)).take 10).take 5).map
        (fun fn => fn.name)

/-- The issue-selection step: up to 5 issues of the selected files,
formatted `"<issue_type>: <description>"`. -/
def selectPotentialIssues (st : Store) (files : List CodeFile) : List JStr :=
  if files.isEmpty then []
  else
    ((st.codeIssues.filter
        (fun iss => (files.map (fun f => f.id)).contains iss.file_id)).take 5).map
      (fun iss => iss.issue_type ++ ": ".data ++ iss.description)

/-- Model of `generateSummary(question, files, functions, issues)`. -/
def generateSummary (question : JStr) (files : List CodeFile)
    (functions issues : List JStr) : JStr :=
  if files.isEmpty then
    "No relevant code files found for the question: \"".data ++ question ++
      "\". The repository may not contain code related to your query.".data
  else
    ("Analysis for question: \"".data ++ question ++ "\". ".data
      ++ "Found ".data ++ natToJStr files.length ++ " relevant code file(s) ".data
      ++ (if !functions.isEmpty then
            "with ".data ++ natToJStr functions.length ++ " key function(s) ".data
          else [])
      ++ (if !issues.isEmpty then
            "and ".data ++ natToJStr issues.length ++ " identified issue(s) ".data
          else [])
      ++ "that may be related to your query.".data
      ++ (if !(dedupFirst ((files.filterMap (fun f => f.language)).filter
              (fun l => !l.isEmpty))).isEmpty then
            " The code is primarily written in: ".data
              ++ List.intercalate ", ".data
                  (dedupFirst ((files.filterMap (fun f => f.language)).filter
                    (fun l => !l.isEmpty)))
              ++ ".".data
          else []))

/-- Model of `generateSuggestions(question, files, issues)`. -/
def generateSuggestions (question : JStr) (files : List CodeFile)
    (issues : List JStr) : List JStr :=
  if files.isEmpty then
    ["Consider adding more detailed file paths or context to your query".data,
     "Try using specific function names or file names in your question".data]
  else
    (let base :=
      (if jsIncludes (toLowerStr question) "performance".data
          || jsIncludes (toLowerStr question) "slow".data
          || jsIncludes (toLowerStr question) "optimize".data then
        ["Review code complexity scores and consider optimization opportunities".data,
         "Look for inefficient algorithms or database queries".data]
      else [])
      ++ (if jsIncludes (toLowerStr question) "error".data
            || jsIncludes (toLowerStr question) "bug".data
            || jsIncludes (toLowerStr question) "issue".data then
        ["Check error handling patterns in the identified files".data,
         "Add comprehensive unit tests for critical functions".data]
      else [])
      ++ (if jsIncludes (toLowerStr question) "security".data
            || jsIncludes (toLowerStr question) "secure".data
            || jsIncludes (toLowerStr question) "vulnerability".data then
        ["Conduct a security audit of input validation and authentication".data,
         "Review data sanitization practices".data]
      else [])
      ++ (if !issues.isEmpty then
        ["Address the identified code issues for better code quality".data,
         "Prioritize high and critical severity issues first".data]
      else [])
      ++ (if files.any (fun f => jsFalsyStr f.ai_summary) then
        ["Generate AI summaries for files to improve future query accuracy".data]
      else [])
    (if base.isEmpty then
      ["Review the identified files for potential improvements".data,
       "Consider adding more detailed documentation to the codebase".data]
    else base).take 5)

/-- The NotFound message of the question-answering handler. -/
def nlqErrMsg (repositoryId : Nat) : JStr :=
  "Repository not found with id: ".data ++ natToJStr repositoryId

/-- Model of `naturalLanguageQuery(input)`.  The handler reads the store
and writes nothing; failure is the thrown NotFound error. -/
def naturalLanguageQuery (inp : NaturalLanguageQueryInput) (st : Store) :
    Except JStr AiAnalysisResponse :=
  if st.repositories.any (fun r => r.id == inp.repository_id) then
    Except.ok
      { summary := generateSummary inp.question (selectRelevantFiles inp st)
          (selectKeyFunctions inp st (selectRelevantFiles inp st))
          (selectPotentialIssues st (selectRelevantFiles inp st))
        key_functions := selectKeyFunctions inp st (selectRelevantFiles inp st)
        potential_issues := selectPotentialIssues st (selectRelevantFiles inp st)
        suggestions := generateSuggestions inp.question (selectRelevantFiles inp st)
          (selectPotentialIssues st (selectRelevantFiles inp st))
        related_files := ((selectRelevantFiles inp st).take 5).map (fun f => f.path) }
  else Except.error (nlqErrMsg inp.repository_id)

/-!
Source: `src/server/src/handlers/analyze_code_file.ts`, handler
`analyzeCodeFile`: verify the file exists (NotFound otherwise), compute
summary and complexity, update the file row, insert the extracted
function rows.  `new Date()` is modelled by the abstract instant `now`
supplied by the environment.
-/

/-- Model of `generateAISummary(content, language)`. -/
def generateAISummary (content : JStr) (language : Option JStr) : JStr :=
  jsTrim
    ("This ".data ++ jsOrElse language "code".data ++ " file contains ".data
      ++ natToJStr (splitOnNl content).length ++ " lines. ".data
      ++ (if jsIncludes content "import".data || jsIncludes content "require".data then
            "It includes external dependencies. ".data
          else [])
      ++ (if jsIncludes content "export".data
            || jsIncludes content "module.exports".data then
            "It exports functionality for use by other modules. ".data
          else [])
      ++ (if jsIncludes content "class ".data || jsIncludes content "interface ".data then
            "It defines classes or interfaces. ".data
          else [])
      ++ (if jsIncludes content "function ".data || jsIncludes content "const ".data
            || jsIncludes content "let ".data then
            "It contains function definitions. ".data
          else []))

/-- The NotFound message of the file-analysis handler. -/
def analyzeErrMsg (fileId : Nat) : JStr :=
  "Code file with ID ".data ++ natToJStr fileId ++ " not found".data

/-- Model of `analyzeCodeFile(fileId)`: returns the store after the
handler's writes together with the outcome.  On the NotFound path the
store is returned untouched — the existence check precedes every write.
Inserting an empty function batch equals not inserting. -/
def analyzeCodeFile (now : Nat) (fileId : Nat) (st : Store) :
    Store × Except JStr CodeFile :=
  match st.codeFiles.find? (fun f => f.id == fileId) with
  | none => (st, Except.error (analyzeErrMsg fileId))
  | some existingFile =>
    ({ st with
        codeFiles := st.codeFiles.map (fun f =>
          if f.id == fileId then
            { f with
                ai_summary := some (generateAISummary existingFile.content
                  existingFile.language)
                complexity_score := some (calculateComplexityScore existingFile.content)
                last_updated := now }
          else f)
        codeFunctions := st.codeFunctions ++
          (extractFunctions existingFile.content existingFile.language).map (fun fr =>
            ⟨fileId, fr.name, fr.signature, fr.line_start, fr.line_end, none, none⟩) },
     Except.ok
      { existingFile with
          ai_summary := some (generateAISummary existingFile.content existingFile.language)
          complexity_score := some (calculateComplexityScore existingFile.content)
          last_updated := now })

/-!
Source: `src/server/src/handlers/get_dependency_visualization.ts`.
-/

/-- A graph node: `id` is the file path, `label` its basename. -/
structure GraphNode where
  id : JStr
  label : JStr
  type : JStr
deriving DecidableEq, Repr

/-- A graph edge (the source's `from`/`to` fields; `from` is a Lean
keyword, hence the underscores). -/
structure GraphEdge where
  from_ : JStr
  to_ : JStr
  type : JStr
deriving DecidableEq, Repr

/-- The node-and-edge graph (`dependencyVisualizationSchema`). -/
structure DependencyVisualization where
  nodes : List GraphNode
  edges : List GraphEdge
deriving DecidableEq, Repr

/-- JavaScript `s.split(sep).pop()`: the segment after the last separator
(the whole string when the separator does not occur). -/
def lastSegAux (sep : Char) : JStr → JStr → JStr
  | [], cur => cur.reverse
  | c :: cs, cur => if c = sep then lastSegAux sep cs [] else lastSegAux sep cs (c :: cur)

/-- The last `sep`-separated segment of `s`. -/
def lastSeg (sep : Char) (s : JStr) : JStr := lastSegAux sep s []

/-- Lookup in the `Map` built from the file list: later entries with the
same path overwrite earlier ones, so the last matching row wins. -/
def fileMapGet (files : List CodeFile) (p : JStr) : Option CodeFile :=
  files.foldl (fun acc f => if f.path = p then some f else acc) none

/-- The node-type classification, in the source's strict rule order. -/
def nodeTypeFor (files : List CodeFile) (path : JStr) : JStr :=
  if toLowerStr (lastSeg '.' path) = "json".data
      ∨ toLowerStr (lastSeg '.' path) = "yaml".data
      ∨ toLowerStr (lastSeg '.' path) = "yml".data then "config".data
  else if toLowerStr (lastSeg '.' path) = "md".data
      ∨ toLowerStr (lastSeg '.' path) = "txt".data
      ∨ toLowerStr (lastSeg '.' path) = "rst".data then "documentation".data
  else if jsIncludes (toLowerStr (lastSeg '/' path)) "test".data
      || jsIncludes (toLowerStr (lastSeg '/' path)) "spec".data then "test".data
  else if jsIncludes (toLowerStr (lastSeg '/' path)) "config".data
      || jsIncludes (toLowerStr (lastSeg '/' path)) "setting".data then "config".data
  else if jsIncludes (toLowerStr (lastSeg '/' path)) "util".data
      || jsIncludes (toLowerStr (lastSeg '/' path)) "helper".data
      || jsIncludes (toLowerStr (lastSeg '/' path)) "lib".data then "utility".data
  else if jsIncludes (toLowerStr (lastSeg '/' path)) "main".data
      || jsIncludes (toLowerStr (lastSeg '/' path)) "index".data
      || jsIncludes (toLowerStr (lastSeg '/' path)) "app".data then "entry".data
  else
    match fileMapGet files path with
    | some fd =>
      match fd.language with
      | some l => if l.isEmpty then "file".data else toLowerStr l
      | none => "file".data
    | none => "file".data

/-- The node label: `filePath.split('/').pop() || filePath`. -/
def nodeLabelFor (path : JStr) : JStr :=
  if (lastSeg '/' path).isEmpty then path else lastSeg '/' path

/-- Model of `getDependencyVisualization(repositoryId)`: nodes are the
distinct dependency endpoints in first-occurrence order (Set insertion
order), edges are the dependency rows mapped one-to-one. -/
def getDependencyVisualization (repositoryId : Nat) (st : Store) :
    DependencyVisualization :=
  { nodes :=
      (dedupFirst ((st.codeDependencies.filter
          (fun d => d.repository_id == repositoryId)).flatMap
        (fun d => [d.from_file, d.to_file]))).map
        (fun p => ⟨p, nodeLabelFor p,
          nodeTypeFor (st.codeFiles.filter (fun f => f.repository_id == repositoryId)) p⟩)
    edges :=
      (st.codeDependencies.filter (fun d => d.repository_id == repositoryId)).map
        (fun d => ⟨d.from_file, d.to_file, d.dependency_type⟩) }

/-- Membership in the first-occurrence deduplication with a seen set. -/
lemma mem_dedupFirstGo (x : JStr) :
    ∀ (l seen : List JStr), x ∈ dedupFirstGo seen l ↔ (x ∈ l ∧ x ∉ seen) := by
  intro l
  induction l with
  | nil => intro seen; simp [dedupFirstGo]
  | cons y ys ih =>
    intro seen
    unfold dedupFirstGo
    by_cases hy : seen.contains y = true
    · rw [if_pos hy, ih seen]
      have hyseen : y ∈ seen := by
        have : seen.elem y = true := hy
        exact (List.elem_iff).mp this
      constructor
      · rintro ⟨hmem, hns⟩
        exact ⟨List.mem_cons_of_mem _ hmem, hns⟩
      · rintro ⟨hmem, hns⟩
        rcases List.mem_cons.mp hmem with rfl | hmem2
        · exact absurd hyseen hns
        · exact ⟨hmem2, hns⟩
    · rw [if_neg hy]
      constructor
      · intro hmem
        rcases List.mem_cons.mp hmem with rfl | hmem2
        · refine ⟨List.mem_cons_self _ _, fun hs => ?_⟩
          exact hy ((List.elem_iff).mpr hs)
        · obtain ⟨h1, h2⟩ := (ih (y :: seen)).mp hmem2
          exact ⟨List.mem_cons_of_mem _ h1, fun hs => h2 (List.mem_cons_of_mem _ hs)⟩
      · rintro ⟨hmem, hns⟩
        rcases List.mem_cons.mp hmem with rfl | hmem2
        · exact List.mem_cons_self _ _
        · by_cases hxy : x = y
          · subst hxy; exact List.mem_cons_self _ _
          · refine List.mem_cons_of_mem _ ((ih (y :: seen)).mpr ⟨hmem2, fun hs => ?_⟩)
            rcases List.mem_cons.mp hs with h | h
            · exact hxy h
            · exact hns h

/-- First-occurrence deduplication preserves membership. -/
lemma mem_dedupFirst (x : JStr) (l : List JStr) : x ∈ dedupFirst l ↔ x ∈ l := by
  rw [dedupFirst, mem_dedupFirstGo]
  simp

/-- A string occurs in any list it is a prefix of. -/
lemma occursIn_of_isPrefixOf (needle hay : JStr) (h : needle.isPrefixOf hay = true) :
    occursIn needle hay = true := by
  cases hay with
  | nil =>
    cases needle with
    | nil => rfl
    | cons c t => simp [List.isPrefixOf] at h
  | cons c t =>
    unfold occursIn
    simp [h]

/-- Occurrence survives prepending a character. -/
lemma occursIn_cons (needle : JStr) (c : Char) (t : JStr)
    (h : occursIn needle t = true) : occursIn needle (c :: t) = true := by
  unfold occursIn
  simp [h]

/-- A string occurs inside any concatenation that embeds it. -/
lemma occursIn_append_mid (pre needle post : JStr) :
    occursIn needle (pre ++ (needle ++ post)) = true := by
  induction pre with
  | nil =>
    apply occursIn_of_isPrefixOf
    have : needle <+: needle ++ post := ⟨post, rfl⟩
    exact (List.isPrefixOf_iff_prefix).mpr this
  | cons c cs ih => exact occursIn_cons _ _ _ ih

/-- C7: when the repository exists but the file-selection step selects no
files (for instance a repository with zero files), the answer is the
fixed no-files summary, empty key functions, issues and related files,
and the fixed two-item suggestion list. -/
theorem claim_C7_no_files (inp : NaturalLanguageQueryInput) (st : Store)
    (hrepo : st.repositories.any (fun r => r.id == inp.repository_id) = true)
    (hsel : selectRelevantFiles inp st = []) :
    naturalLanguageQuery inp st = Except.ok
      { summary := "No relevant code files found for the question: \"".data ++ inp.question ++
          "\". The repository may not contain code related to your query.".data
        key_functions := []
        potential_issues := []
        suggestions :=
          ["Consider adding more detailed file paths or context to your query".data,
           "Try using specific function names or file names in your question".data]
        related_files := [] } := by
  unfold naturalLanguageQuery
  rw [if_pos hrepo, hsel]
  rfl

/-- Witness for C7: a store with one repository and no files. -/
theorem claim_C7_witness :
    naturalLanguageQuery ⟨1, "auth".data, none⟩
      ⟨[⟨1, "u".data, "r".data, none, "o".data, "main".data⟩], [], [], [], [], []⟩ =
    Except.ok
      { summary := "No relevant code files found for the question: \"".data ++ "auth".data ++
          "\". The repository may not contain code related to your query.".data
        key_functions := []
        potential_issues := []
        suggestions :=
          ["Consider adding more detailed file paths or context to your query".data,
           "Try using specific function names or file names in your question".data]
        related_files := [] } :=
  claim_C7_no_files ⟨1, "auth".data, none⟩
    ⟨[⟨1, "u".data, "r".data, none, "o".data, "main".data⟩], [], [], [], [], []⟩
    (by decide) (by decide)

/-- C8: the file-analysis handler fails with the NotFound message carrying
the file id exactly when no file row has that id, leaving the store
untouched in that case; the question-answering handler fails with the
NotFound message carrying the repository id exactly when no repository
row has that id (it writes to the store on no path at all). -/
theorem claim_C8_notfound_errors (now fileId : Nat) (inp : NaturalLanguageQueryInput)
    (st : Store) :
    (((analyzeCodeFile now fileId st).2 = Except.error (analyzeErrMsg fileId)) ↔
      ¬∃ f ∈ st.codeFiles, f.id = fileId) ∧
    occursIn (natToJStr fileId) (analyzeErrMsg fileId) = true ∧
    ((¬∃ f ∈ st.codeFiles, f.id = fileId) → (analyzeCodeFile now fileId st).1 = st) ∧
    ((naturalLanguageQuery inp st = Except.error (nlqErrMsg inp.repository_id)) ↔
      ¬∃ r ∈ st.repositories, r.id = inp.repository_id) ∧
    occursIn (natToJStr inp.repository_id) (nlqErrMsg inp.repository_id) = true := by
  have hfindnone : (st.codeFiles.find? (fun f => f.id == fileId) = none) ↔
      ¬∃ f ∈ st.codeFiles, f.id = fileId := by
    rw [List.find?_eq_none]
    constructor
    · intro h
      rintro ⟨f, hf, hid⟩
      exact h f hf (by simp [hid])
    · intro h f hf hp
      exact h ⟨f, hf, by simpa using hp⟩
  refine ⟨?_, ?_, ?_, ?_, ?_⟩
  · cases hfind : st.codeFiles.find? (fun f => f.id == fileId) with
    | none =>
      simp only [analyzeCodeFile, hfind]
      simp only [true_iff]
      exact hfindnone.mp hfind
    | some f0 =>
      simp only [analyzeCodeFile, hfind]
      constructor
      · intro h
        exact absurd h (by simp)
      · intro hne
        exfalso
        apply hne
        refine ⟨f0, List.mem_of_find?_eq_some hfind, ?_⟩
        have := List.find?_some hfind
        simpa using this
  · have h := occursIn_append_mid ("Code file with ID ".data) (natToJStr fileId)
      (" not found".data)
    rw [← List.append_assoc] at h
    exact h
  · intro hne
    have hfind : st.codeFiles.find? (fun f => f.id == fileId) = none := hfindnone.mpr hne
    simp only [analyzeCodeFile, hfind]
  · cases hany : st.repositories.any (fun r => r.id == inp.repository_id) with
    | true =>
      unfold naturalLanguageQuery
      rw [if_pos hany]
      constructor
      · intro h
        exact absurd h (by simp)
      · intro hne
        exfalso
        apply hne
        obtain ⟨r, hr, hp⟩ := List.any_eq_true.mp hany
        exact ⟨r, hr, by simpa using hp⟩
    | false =>
      unfold naturalLanguageQuery
      rw [if_neg (by simp [hany])]
      simp only [true_iff]
      rintro ⟨r, hr, hid⟩
      have : st.repositories.any (fun r => r.id == inp.repository_id) = true :=
        List.any_eq_true.mpr ⟨r, hr, by simp [hid]⟩
      rw [hany] at this
      exact Bool.noConfusion this
  · have h := occursIn_append_mid ("Repository not found with id: ".data)
      (natToJStr inp.repository_id) []
    rwa [List.append_nil] at h

/-- Witness for C8: against the empty store both handlers fail with their
NotFound messages, and the store is unchanged. -/
theorem claim_C8_witness :
    (analyzeCodeFile 0 1 emptyStore).2 = Except.error (analyzeErrMsg 1) ∧
    (analyzeCodeFile 0 1 emptyStore).1 = emptyStore ∧
    naturalLanguageQuery ⟨1, "q".data, none⟩ emptyStore = Except.error (nlqErrMsg 1) := by
  have h := claim_C8_notfound_errors 0 1 ⟨1, "q".data, none⟩ emptyStore
  have hnof : ¬∃ f ∈ emptyStore.codeFiles, f.id = 1 := by simp [emptyStore]
  have hnor : ¬∃ r ∈ emptyStore.repositories, r.id = 1 := by simp [emptyStore]
  exact ⟨h.1.mpr hnof, h.2.2.1 hnof, h.2.2.2.1.mpr hnor⟩

/-- C9: the graph's node ids are exactly the distinct `from_file`/`to_file`
paths of the repository's dependency edges (in first-occurrence order);
every edge endpoint has a node, and a path referenced by no edge has no
node — even when a file row with that path exists, since the node set
does not depend on the file rows. -/
theorem claim_C9_graph_nodes (repositoryId : Nat) (st : Store) :
    ((getDependencyVisualization repositoryId st).nodes.map (fun n => n.id) =
      dedupFirst ((st.codeDependencies.filter
        (fun d => d.repository_id == repositoryId)).flatMap
        (fun d => [d.from_file, d.to_file]))) ∧
    (∀ p : JStr,
      (∃ n ∈ (getDependencyVisualization repositoryId st).nodes, n.id = p) ↔
      (∃ d ∈ st.codeDependencies.filter (fun d => d.repository_id == repositoryId),
        p = d.from_file ∨ p = d.to_file)) ∧
    (∀ e ∈ (getDependencyVisualization repositoryId st).edges,
      (∃ n ∈ (getDependencyVisualization repositoryId st).nodes, n.id = e.from_) ∧
      (∃ n ∈ (getDependencyVisualization repositoryId st).nodes, n.id = e.to_)) := by
  refine ⟨?_, ?_, ?_⟩
  · unfold getDependencyVisualization
    rw [List.map_map]
    have hcomp : ((fun n : GraphNode => n.id) ∘ (fun p : JStr =>
        (⟨p, nodeLabelFor p,
          nodeTypeFor (st.codeFiles.filter (fun f => f.repository_id == repositoryId)) p⟩ :
          GraphNode))) = fun p : JStr => p := rfl
    rw [hcomp, show (fun p : JStr => p) = id from rfl, List.map_id]
  · intro p
    constructor
    · rintro ⟨n, hn, rfl⟩
      simp only [getDependencyVisualization, List.mem_map] at hn
      obtain ⟨q, hq, rfl⟩ := hn
      rw [mem_dedupFirst] at hq
      rw [List.mem_flatMap] at hq
      obtain ⟨d, hd, hqd⟩ := hq
      refine ⟨d, hd, ?_⟩
      rcases List.mem_cons.mp hqd with h | h
      · exact Or.inl h
      · exact Or.inr (by simpa using h)
    · rintro ⟨d, hd, hp⟩
      refine ⟨⟨p, nodeLabelFor p,
        nodeTypeFor (st.codeFiles.filter (fun f => f.repository_id == repositoryId)) p⟩,
        ?_, rfl⟩
      simp only [getDependencyVisualization, List.mem_map]
      refine ⟨p, ?_, rfl⟩
      rw [mem_dedupFirst, List.mem_flatMap]
      refine ⟨d, hd, ?_⟩
      rcases hp with h | h
      · exact h ▸ List.mem_cons_self _ _
      · simp [h]
  · intro e he
    simp only [getDependencyVisualization, List.mem_map] at he
    obtain ⟨d, hd, rfl⟩ := he
    constructor
    · refine ⟨⟨d.from_file, nodeLabelFor d.from_file,
        nodeTypeFor (st.codeFiles.filter (fun f => f.repository_id == repositoryId))
          d.from_file⟩, ?_, rfl⟩
      simp only [getDependencyVisualization, List.mem_map]
      refine ⟨d.from_file, ?_, rfl⟩
      rw [mem_dedupFirst, List.mem_flatMap]
      exact ⟨d, hd, List.mem_cons_self _ _⟩
    · refine ⟨⟨d.to_file, nodeLabelFor d.to_file,
        nodeTypeFor (st.codeFiles.filter (fun f => f.repository_id == repositoryId))
          d.to_file⟩, ?_, rfl⟩
      simp only [getDependencyVisualization, List.mem_map]
      refine ⟨d.to_file, ?_, rfl⟩
      rw [mem_dedupFirst, List.mem_flatMap]
      exact ⟨d, hd, by simp⟩

/-- Witness for C9: the scenario with files `src/main.ts`, `src/utils.ts`,
an orphan file, and one import edge: the two endpoints are nodes (typed
entry and utility), the orphan path is not. -/
theorem claim_C9_witness :
    ((getDependencyVisualization 1
        ⟨[], [⟨1, 1, "src/main.ts".data, "import x".data, some "typescript".data, 8,
            none, none, 0, 0⟩,
          ⟨2, 1, "src/utils.ts".data, "export y".data, some "typescript".data, 8,
            none, none, 0, 0⟩,
          ⟨3, 1, "src/orphan.ts".data, "z".data, some "typescript".data, 1,
            none, none, 0, 0⟩], [], [],
          [⟨1, "src/main.ts".data, "src/utils.ts".data, "import".data⟩], []⟩).nodes =
      [⟨"src/main.ts".data, "main.ts".data, "entry".data⟩,
       ⟨"src/utils.ts".data, "utils.ts".data, "utility".data⟩]) ∧
    ((∃ n ∈ (getDependencyVisualization 1
        ⟨[], [⟨1, 1, "src/main.ts".data, "import x".data, some "typescript".data, 8,
            none, none, 0, 0⟩,
          ⟨2, 1, "src/utils.ts".data, "export y".data, some "typescript".data, 8,
            none, none, 0, 0⟩,
          ⟨3, 1, "src/orphan.ts".data, "z".data, some "typescript".data, 1,
            none, none, 0, 0⟩], [], [],
          [⟨1, "src/main.ts".data, "src/utils.ts".data, "import".data⟩], []⟩).nodes,
        n.id = "src/main.ts".data) ∧
      (∃ n ∈ (getDependencyVisualization 1
        ⟨[], [⟨1, 1, "src/main.ts".data, "import x".data, some "typescript".data, 8,
            none, none, 0, 0⟩,
          ⟨2, 1, "src/utils.ts".data, "export y".data, some "typescript".data, 8,
            none, none, 0, 0⟩,
          ⟨3, 1, "src/orphan.ts".data, "z".data, some "typescript".data, 1,
            none, none, 0, 0⟩], [], [],
          [⟨1, "src/main.ts".data, "src/utils.ts".data, "import".data⟩], []⟩).nodes,
        n.id = "src/utils.ts".data)) ∧
    ¬(∃ n ∈ (getDependencyVisualization 1
        ⟨[], [⟨1, 1, "src/main.ts".data, "import x".data, some "typescript".data, 8,
            none, none, 0, 0⟩,
          ⟨2, 1, "src/utils.ts".data, "export y".data, some "typescript".data, 8,
            none, none, 0, 0⟩,
          ⟨3, 1, "src/orphan.ts".data, "z".data, some "typescript".data, 1,
            none, none, 0, 0⟩], [], [],
          [⟨1, "src/main.ts".data, "src/utils.ts".data, "import".data⟩], []⟩).nodes,
        n.id = "src/orphan.ts".data) := by
  refine ⟨by decide, ?_, by decide⟩
  exact (claim_C9_graph_nodes 1 _).2.2
    ⟨"src/main.ts".data, "src/utils.ts".data, "import".data⟩ (by decide)

end AICE
